import Mathlib

/-!
Shallow embedding of the metrics-calculation service (`MetricsService` in
`src/agent-patcher.js`) of the spec-workflow extension pack, together with
proofs of the specified properties.

Modelling conventions:
* JS numbers that only ever hold integral millisecond timestamps, counts and
  durations are modelled as `Int`/`Nat`; `Math.round(x)` for the rational
  values appearing here is `⌊x + 1/2⌋`, made explicit through `jsRound` /
  `jsRoundInt`.
* JS truthiness tests on optional numeric / string fields are modelled
  explicitly (`jsOrNum`, `jsOrStr`): both `undefined` and `0` (resp. `""`)
  are falsy.
* The validation-result backing store is a `Store`: a directory that is
  either listable or not, holding files that are individually readable or
  not.  `fs` failures become `Except` errors.
* `Date.now()` is an explicit `now : Int` parameter (milliseconds).
-/

/-- Decidable equality for `Except`, used to evaluate the fallible
operations on concrete inputs. -/
instance {ε α : Type} [DecidableEq ε] [DecidableEq α] : DecidableEq (Except ε α) :=
  fun a b =>
    match a, b with
    | .ok x, .ok y =>
      if h : x = y then isTrue (by rw [h])
      else isFalse (fun hh => h (by injection hh))
    | .error x, .error y =>
      if h : x = y then isTrue (by rw [h])
      else isFalse (fun hh => h (by injection hh))
    | .ok _, .error _ => isFalse (fun hh => Except.noConfusion hh)
    | .error _, .ok _ => isFalse (fun hh => Except.noConfusion hh)

/-- Status of one validation-result record (`result.status`). `other`
stands for any string besides the three recognised ones. -/
inductive Status where
  | success
  | failure
  | warning
  | other
  deriving DecidableEq, Repr

/-- One pattern entry of `result.patterns` ({name, type, scope, confidence}),
with optional fields made explicit. -/
structure Pattern where
  name : Option String
  ptype : Option String
  scope : Option String
  confidence : Option Rat
  deriving DecidableEq, Repr

/-- A validation-result record as the calculators see it (after
`loadValidationResults` has defaulted the timestamp). -/
structure VRecord where
  project : Option String
  timestamp : Int
  status : Status
  executionTime : Option Int
  testCount : Option Int
  totalTests : Option Int
  patterns : List Pattern
  deriving DecidableEq, Repr

/-- `Math.round(num / den)` for `0 ≤ num`, `0 < den`:
`⌊num/den + 1/2⌋ = (2*num + den) / (2*den)` in natural division. -/
def jsRound (num den : Nat) : Nat :=
  (2 * num + den) / (2 * den)

/-- `Math.round(num / den)` over the integers (`0 < den`); JS rounds halves
toward `+∞`, i.e. `⌊num/den + 1/2⌋`, which is a floor division. -/
def jsRoundInt (num den : Int) : Int :=
  Int.fdiv (2 * num + den) (2 * den)

/-- `a || b` on optional numbers under JS truthiness (`0` is falsy). -/
def jsOrNum (a b : Option Int) : Option Int :=
  match a with
  | some x => if x ≠ 0 then some x else b
  | none => b

/-- `a || b` on optional strings under JS truthiness (`""` is falsy). -/
def jsOrStr (a b : Option String) : Option String :=
  match a with
  | some s => if s ≠ "" then some s else b
  | none => b

/-- Insert `a` into `l` before the first element `b` with `le a b`; helper
of `jsSort`. -/
def jsSortInsert {α : Type} (le : α → α → Bool) (a : α) : List α → List α
  | [] => [a]
  | b :: l => if le a b then a :: b :: l else b :: jsSortInsert le a l

/-- Stable sort modelling `Array.prototype.sort` with a consistent
comparator (insertion sort: structurally recursive, hence fully
computable by the kernel). -/
def jsSort {α : Type} (le : α → α → Bool) : List α → List α
  | [] => []
  | a :: l => jsSortInsert le a (jsSort le l)

/-- Number of records of `rs` with status `s`
(`results.filter(r => r.status === s).length`). -/
def countStatus (s : Status) (rs : List VRecord) : Nat :=
  (rs.filter (fun r => r.status == s)).length

/-- Milliseconds in a day (`24 * 60 * 60 * 1000`). -/
def msPerDay : Int := 86400000

/-- Trend label returned by `calculateTrend`. -/
inductive TrendLabel where
  | improving
  | declining
  | stable
  deriving DecidableEq, Repr

/-- `MetricsService.calculateTrend(results, days)`: compare the success rate
of the records of the last `days` days against the equally many records
immediately preceding them.  The JS float comparison
`difference > 0.05` on `sr/nr - sp/np` is carried out exactly on rationals
via cross-multiplication. -/
def calculateTrend (now : Int) (results : List VRecord) (days : Int) : TrendLabel :=
  if results.length < 10 then .stable
  else
    let cutoff := now - days * msPerDay
    let recent := results.filter (fun r => cutoff ≤ r.timestamp)
    let prevAll := results.filter (fun r => r.timestamp < cutoff)
    -- `prevAll.slice(-recent.length)`: the last `recent.length` elements,
    -- except that `slice(-0)` is `slice(0)`, the whole list.
    let previous := if recent.length = 0 then prevAll
      else prevAll.drop (prevAll.length - recent.length)
    if recent.length < 5 ∨ previous.length < 5 then .stable
    else
      let sr : Int := countStatus .success recent
      let sp : Int := countStatus .success previous
      let nr : Int := recent.length
      let np : Int := previous.length
      -- difference = sr/nr - sp/np; compare with ±0.05 = ±1/20
      if 20 * (sr * np - sp * nr) > nr * np then .improving
      else if 20 * (sr * np - sp * nr) < -(nr * np) then .declining
      else .stable

/-- The `breakdown` sub-object of the overview metrics. -/
structure Breakdown where
  successful : Nat
  failed : Nat
  warnings : Nat
  deriving DecidableEq, Repr

/-- Result of `calculateOverviewMetrics`; `breakdown` is `none` exactly when
the JS object carries no `breakdown` property. -/
structure OverviewMetrics where
  totalValidations : Nat
  successRate : Nat
  failureRate : Nat
  warningRate : Nat
  qualityScore : Nat
  trend : TrendLabel
  breakdown : Option Breakdown
  deriving DecidableEq, Repr

/-- `MetricsService.calculateOverviewMetrics(results)`.  Rates are
`Math.round((count/total)*100)`; the quality score half-credits warnings:
`Math.round(((successful + warnings*0.5)/total)*100)`. -/
def calculateOverviewMetrics (now : Int) (results : List VRecord) : OverviewMetrics :=
  let total := results.length
  if total = 0 then
    { totalValidations := 0
      successRate := 0
      failureRate := 0
      warningRate := 0
      qualityScore := 0
      trend := .stable
      breakdown := none }
  else
    let successful := countStatus .success results
    let failed := countStatus .failure results
    let warnings := countStatus .warning results
    { totalValidations := total
      successRate := jsRound (100 * successful) total
      failureRate := jsRound (100 * failed) total
      warningRate := jsRound (100 * warnings) total
      qualityScore := jsRound (100 * successful + 50 * warnings) total
      trend := calculateTrend now results 7
      breakdown := some { successful := successful, failed := failed, warnings := warnings } }

/-- One element of the list returned by `calculateTrendMetrics`: the period
label (`periodEnd`, whose date part the JS code prints), the per-period
overview, and the `dateRange` bounds. -/
structure TrendBucket where
  periodEnd : Int
  overview : OverviewMetrics
  rangeStart : Int
  rangeEnd : Int
  deriving DecidableEq, Repr

/-- Body of the loop `for (let i = timeframe; i >= 0; i -= daysPerPeriod)`
in `calculateTrendMetrics`: the bucket pushed for loop counter `i`. -/
def trendBucketAt (now : Int) (results : List VRecord) (d : Nat) (i : Nat) : TrendBucket :=
  let periodEnd := now - (i : Int) * msPerDay
  let periodStart := periodEnd - (d : Int) * msPerDay
  let periodResults := results.filter
    (fun r => periodStart ≤ r.timestamp && r.timestamp < periodEnd)
  { periodEnd := periodEnd
    overview := calculateOverviewMetrics now periodResults
    rangeStart := periodStart
    rangeEnd := periodEnd }

/-- The loop of `calculateTrendMetrics`, run with structural fuel; the next
iteration happens exactly when the decremented counter is still `≥ 0`,
i.e. when `d ≤ i` (the caller supplies `fuel > i`, which always suffices
because `d ≥ 1`). -/
def trendLoop (now : Int) (results : List VRecord) (d : Nat) :
    Nat → Nat → List TrendBucket
  | 0, _ => []
  | fuel + 1, i =>
    trendBucketAt now results d i ::
      (if 1 ≤ d ∧ d ≤ i then trendLoop now results d fuel (i - d) else [])

/-- `MetricsService.calculateTrendMetrics(results, timeframe)`:
`daysPerPeriod = max(1, floor(timeframe / 10))`, then the backward loop
over `i = timeframe, timeframe - d, …` down to `i ≥ 0`. -/
def calculateTrendMetrics (now : Int) (results : List VRecord) (timeframe : Nat) :
    List TrendBucket :=
  let daysPerPeriod := max 1 (timeframe / 10)
  trendLoop now results daysPerPeriod (timeframe + 1) timeframe

/-- Result of `calculatePerformanceMetrics`.  `throughput` is
`Math.round(count/hours*100)/100`, an exact rational here. -/
structure PerformanceMetrics where
  averageExecutionTime : Int
  medianExecutionTime : Int
  maxExecutionTime : Int
  minExecutionTime : Int
  averageTestCount : Int
  totalTestsExecuted : Int
  throughput : Rat
  deriving DecidableEq, Repr

/-- `results.map(r => r.executionTime).filter(Boolean)`: the execution times
that are present and truthy (so a present `0` is dropped). -/
def executionTimesOf (results : List VRecord) : List Int :=
  (results.filterMap (fun r => r.executionTime)).filter (fun t => t ≠ 0)

/-- `results.map(r => r.testCount || r.totalTests).filter(Boolean)`. -/
def testCountsOf (results : List VRecord) : List Int :=
  (results.filterMap (fun r => jsOrNum r.testCount r.totalTests)).filter (fun t => t ≠ 0)

/-- Sum of a list of integers (`reduce((a, b) => a + b, 0)`). -/
def listSum (l : List Int) : Int := l.foldl (· + ·) 0

/-- `Math.max(...l)` for a non-empty `l` (0 as a harmless default). -/
def listMax (l : List Int) : Int :=
  match l with
  | [] => 0
  | x :: xs => xs.foldl max x

/-- `Math.min(...l)` for a non-empty `l` (0 as a harmless default). -/
def listMin (l : List Int) : Int :=
  match l with
  | [] => 0
  | x :: xs => xs.foldl min x

/-- The median computation of `calculatePerformanceMetrics`: sort a copy
ascending, take the middle element, or `Math.round` of the mean of the two
middle elements for even length. -/
def medianOf (l : List Int) : Int :=
  let sorted := jsSort (fun a b => a ≤ b) l
  let mid := sorted.length / 2
  if sorted.length % 2 = 0 then
    jsRoundInt (sorted.getD (mid - 1) 0 + sorted.getD mid 0) 2
  else sorted.getD mid 0

/-- `MetricsService.calculatePerformanceMetrics(results)`. -/
def calculatePerformanceMetrics (results : List VRecord) : PerformanceMetrics :=
  let executionTimes := executionTimesOf results
  let testCounts := testCountsOf results
  let throughput : Rat :=
    if 1 < results.length then
      match results.head?, results.getLast? with
      | some first, some last =>
        let timeSpan := last.timestamp - first.timestamp
        if 0 < timeSpan then
          -- Math.round(count / hours * 100) / 100, hours = span / 3600000
          (jsRoundInt ((results.length : Int) * 360000000) timeSpan : Rat) / 100
        else 0
      | _, _ => 0
    else 0
  { averageExecutionTime :=
      if 0 < executionTimes.length then
        jsRoundInt (listSum executionTimes) executionTimes.length
      else 0
    medianExecutionTime :=
      if 0 < executionTimes.length then medianOf executionTimes else 0
    maxExecutionTime :=
      if 0 < executionTimes.length then listMax executionTimes else 0
    minExecutionTime :=
      if 0 < executionTimes.length then listMin executionTimes else 0
    averageTestCount :=
      if 0 < testCounts.length then
        jsRoundInt (listSum testCounts) testCounts.length
      else 0
    totalTestsExecuted := listSum testCounts
    throughput := throughput }

/-- Raw content of one JSON file of the validation-results directory, before
`loadValidationResults` normalises it (`timestamp` may be absent). -/
structure RawRecord where
  project : Option String
  timestamp : Option Int
  status : Status
  executionTime : Option Int
  testCount : Option Int
  totalTests : Option Int
  patterns : List Pattern
  deriving DecidableEq, Repr

/-- One directory entry of the validation-results directory.  `isJson`
models the `.json` filename filter; `readable = false` models a file whose
`readJson` (or `stat`) throws, which the per-file `try/catch` skips. -/
structure FileEntry where
  isJson : Bool
  readable : Bool
  data : RawRecord
  mtime : Int
  deriving DecidableEq, Repr

/-- The validation-results backing store.  `dirReadable = false` models
`fs.ensureDir` or `fs.readdir` throwing (directory cannot be created or
listed). -/
structure Store where
  dirReadable : Bool
  files : List FileEntry
  deriving DecidableEq, Repr

/-- Timestamp defaulting of `loadValidationResults`:
`if (!data.timestamp) data.timestamp = fileStats.mtime`. -/
def normalizeEntry (e : FileEntry) : VRecord :=
  { project := e.data.project
    timestamp := match e.data.timestamp with
      | some t => t
      | none => e.mtime
    status := e.data.status
    executionTime := e.data.executionTime
    testCount := e.data.testCount
    totalTests := e.data.totalTests
    patterns := e.data.patterns }

/-- `s.toLowerCase()` as a character list. -/
def jsToLowerList (s : String) : List Char := s.data.map Char.toLower

/-- Whether `a` is a prefix of `b` (character lists). -/
def listPrefixOf (a b : List Char) : Bool :=
  match a, b with
  | [], _ => true
  | _ :: _, [] => false
  | x :: xs, y :: ys => x == y && listPrefixOf xs ys

/-- Whether `a` occurs contiguously in `b`: `b.includes(a)`. -/
def listInfixOf (a : List Char) : List Char → Bool
  | [] => listPrefixOf a []
  | y :: ys => listPrefixOf a (y :: ys) || listInfixOf a ys

/-- The case-insensitive substring test
`data.project.toLowerCase().includes(projectName.toLowerCase())`. -/
def projectMatches (recordProject : Option String) (projectName : String) : Bool :=
  match recordProject with
  | none => false
  | some p => listInfixOf (jsToLowerList projectName) (jsToLowerList p)

/-- The record-filter of `loadValidationResults`: skip when older than the
cutoff, or when a project name is requested and the record's project does
not contain it (case-insensitively). -/
def keepRecord (projectName : Option String) (cutoffDate : Option Int)
    (r : VRecord) : Bool :=
  (match cutoffDate with
   | some cutoff => !(r.timestamp < cutoff)
   | none => true) &&
  (match projectName with
   | some p => if p ≠ "" then projectMatches r.project p else true
   | none => true)

/-- `MetricsService.loadValidationResults(projectName, cutoffDate)`.
Directory-level failures (`ensureDir` / `readdir`) are NOT caught there and
surface as an `Except.error`; unreadable individual files are skipped by the
per-file `try/catch`.  The result is sorted ascending by timestamp (stable,
as `Array.prototype.sort` is). -/
def loadValidationResults (store : Store) (projectName : Option String)
    (cutoffDate : Option Int) : Except Unit (List VRecord) :=
  if store.dirReadable then
    let jsonFiles := store.files.filter (fun e => e.isJson)
    let results := jsonFiles.filterMap (fun e =>
      if e.readable then
        let r := normalizeEntry e
        if keepRecord projectName cutoffDate r then some r else none
      else none)
    .ok (jsSort (fun a b => a.timestamp ≤ b.timestamp) results)
  else .error ()

/-- One entry of the health `indicators` list. -/
structure Indicator where
  itype : String
  message : String
  deriving DecidableEq, Repr

/-- Result of `calculateHealthMetrics`; `lastUpdate` is `none` on the
empty-input short-circuit, which carries no `lastUpdate` property. -/
structure HealthMetrics where
  overall : String
  score : Int
  indicators : List Indicator
  recommendations : List String
  lastUpdate : Option Int
  deriving DecidableEq, Repr

/-- Key `p.name || p.type` used for the pattern-diversity check of
`calculateHealthMetrics` (no "unknown" fallback there: both absent yields
the single Set element `undefined`, modelled as `none`). -/
def healthPatternKey (p : Pattern) : Option String :=
  jsOrStr p.name p.ptype

/-- `MetricsService.calculateHealthMetrics(results)`. -/
def calculateHealthMetrics (now : Int) (results : List VRecord) : HealthMetrics :=
  if results.length = 0 then
    { overall := "unknown"
      score := 0
      indicators := []
      recommendations := ["No validation data available"]
      lastUpdate := none }
  else
    let total := results.length
    let successRate := jsRound (100 * countStatus .success results) total
    let ind1 : List Indicator :=
      if successRate < 70 then
        [{ itype := "warning", message := "Low success rate: " ++ toString successRate ++ "%" }]
      else if 95 ≤ successRate then
        [{ itype := "success", message := "Excellent success rate: " ++ toString successRate ++ "%" }]
      else []
    let rec1 : List String :=
      if successRate < 70 then ["Review failing validation patterns and improve test quality"]
      else []
    let ded1 : Int := if successRate < 70 then (70 : Int) - successRate else 0
    let trend := calculateTrend now results 7
    let ind2 : List Indicator :=
      if trend = .declining then [{ itype := "warning", message := "Quality trend is declining" }]
      else if trend = .improving then [{ itype := "success", message := "Quality trend is improving" }]
      else []
    let rec2 : List String :=
      if trend = .declining then ["Investigate recent changes that may be affecting validation quality"]
      else []
    let ded2 : Int := if trend = .declining then 15 else 0
    let recentResults := results.drop (results.length - 20)
    let patternsUsed :=
      ((recentResults.flatMap (fun r => r.patterns)).map healthPatternKey).dedup
    let lowDiversity := patternsUsed.length < 3 ∧ 10 < results.length
    let ind3 : List Indicator :=
      if lowDiversity then [{ itype := "info", message := "Limited pattern diversity detected" }]
      else []
    let rec3 : List String :=
      if lowDiversity then ["Consider expanding pattern library to improve validation coverage"]
      else []
    let ded3 : Int := if lowDiversity then 5 else 0
    let executionTimes := executionTimesOf results
    -- avg > 30000 on floats is `sum / n > 30000`, i.e. `sum > 30000 * n`
    let slow := 0 < executionTimes.length ∧
      30000 * (executionTimes.length : Int) < listSum executionTimes
    let ind4 : List Indicator :=
      if slow then [{ itype := "warning", message := "Slow average validation time" }]
      else []
    let rec4 : List String :=
      if slow then ["Optimize validation processes to improve performance"]
      else []
    let ded4 : Int := if slow then 10 else 0
    let score : Int := 100 - ded1 - ded2 - ded3 - ded4
    let overall :=
      if score < 60 then "poor"
      else if score < 75 then "fair"
      else if score < 90 then "good"
      else "excellent"
    { overall := overall
      score := max 0 score
      indicators := ind1 ++ ind2 ++ ind3 ++ ind4
      recommendations := rec1 ++ rec2 ++ rec3 ++ rec4
      lastUpdate := some now }

/-- Per-pattern accumulator of `calculatePatternMetrics` (one value of the
`patternStats` Map). -/
structure PStat where
  name : String
  usage : Nat
  successes : Nat
  failures : Nat
  warnings : Nat
  confidence : Rat
  scope : String
  deriving DecidableEq, Repr

/-- `pattern.name || pattern.type || 'unknown'`. -/
def patternKey (p : Pattern) : String :=
  match jsOrStr p.name p.ptype with
  | some s => if s ≠ "" then s else "unknown"
  | none => "unknown"

/-- Initial accumulator created on first sight of a pattern key. -/
def initStat (key : String) (p : Pattern) : PStat :=
  { name := key
    usage := 0
    successes := 0
    failures := 0
    warnings := 0
    confidence := p.confidence.getD 0
    scope := (jsOrStr p.scope (some "universal")).getD "universal" }

/-- One accumulation step: bump usage, the status counter, and the running
confidence average `((conf*(n-1)) + sample)/n` with the bumped `n`. -/
def updateStat (status : Status) (p : Pattern) (s : PStat) : PStat :=
  let usage := s.usage + 1
  { s with
    usage := usage
    successes := if status = .success then s.successes + 1 else s.successes
    failures := if status = .failure then s.failures + 1 else s.failures
    warnings := if status = .warning then s.warnings + 1 else s.warnings
    confidence :=
      (s.confidence * ((usage : Rat) - 1) + p.confidence.getD 0) / (usage : Rat) }

/-- Process one pattern occurrence against the accumulator map (a Map keyed
by pattern key, in insertion order). -/
def applyPattern (status : Status) (acc : List PStat) (p : Pattern) : List PStat :=
  let key := patternKey p
  if acc.any (fun s => s.name = key) then
    acc.map (fun s => if s.name = key then updateStat status p s else s)
  else
    acc ++ [updateStat status p (initStat key p)]

/-- The full fold of `calculatePatternMetrics` over every record's pattern
list. -/
def patternStatsOf (results : List VRecord) : List PStat :=
  results.foldl (fun acc r => r.patterns.foldl (applyPattern r.status) acc) []

/-- A `PStat` together with the spread-in `effectiveness` and `successRate`
fields. -/
structure PatternMetric where
  stat : PStat
  effectiveness : Nat
  successRate : Nat
  deriving DecidableEq, Repr

/-- `{...stats, effectiveness, successRate}`. -/
def mkPatternMetric (s : PStat) : PatternMetric :=
  { stat := s
    effectiveness :=
      if 0 < s.usage then jsRound (100 * s.successes + 50 * s.warnings) s.usage else 0
    successRate := if 0 < s.usage then jsRound (100 * s.successes) s.usage else 0 }

/-- One `{count, version}` entry of the pattern-library statistics. -/
structure LibEntryStats where
  count : Nat
  version : String
  deriving DecidableEq, Repr

/-- Content of one pattern-library JSON file (`patternsCount = none` models
a file without a `patterns` array). -/
structure LibFile where
  patternsCount : Option Nat
  version : Option String
  deriving DecidableEq, Repr

/-- The pattern-catalog store: each scope's library file may be absent. -/
structure PatternLib where
  universal : Option LibFile
  backend : Option LibFile
  frontend : Option LibFile
  deriving DecidableEq, Repr

/-- `libraryStats` object of `getPatternLibraryStats`. -/
structure LibraryStats where
  universal : LibEntryStats
  backend : LibEntryStats
  frontend : LibEntryStats
  total : Nat
  deriving DecidableEq, Repr

/-- Stats of one library file: `patterns ? patterns.length : 0` and
`version || '0.0.0'`; an absent file keeps the defaults. -/
def libEntryOf (f : Option LibFile) : LibEntryStats :=
  match f with
  | some file =>
    { count := file.patternsCount.getD 0
      version := (jsOrStr file.version (some "0.0.0")).getD "0.0.0" }
  | none => { count := 0, version := "0.0.0" }

/-- `MetricsService.getPatternLibraryStats()`. -/
def getPatternLibraryStats (lib : PatternLib) : LibraryStats :=
  let u := libEntryOf lib.universal
  let b := libEntryOf lib.backend
  let f := libEntryOf lib.frontend
  { universal := u, backend := b, frontend := f
    total := u.count + b.count + f.count }

/-- Result of `calculatePatternMetrics`. -/
structure PatternMetricsResult where
  patternUsage : List PatternMetric
  mostEffective : List PatternMetric
  leastEffective : List PatternMetric
  libraryStats : LibraryStats
  totalPatterns : Nat
  averageEffectiveness : Nat
  deriving DecidableEq, Repr

/-- `MetricsService.calculatePatternMetrics(results)`.  JS sorts the same
array in place, so the second (effectiveness) sort starts from the
usage-sorted order; `patternUsage` was sliced off before that.  All JS
sorts are stable, modelled by `jsSort`. -/
def calculatePatternMetrics (lib : PatternLib) (results : List VRecord) :
    PatternMetricsResult :=
  let patternMetrics := (patternStatsOf results).map mkPatternMetric
  let byUsage := jsSort (fun a b => b.stat.usage ≤ a.stat.usage) patternMetrics
  let byEff := jsSort (fun a b => b.effectiveness ≤ a.effectiveness) byUsage
  { patternUsage := byUsage.take 20
    mostEffective := byEff.take 10
    leastEffective :=
      (jsSort (fun a b => a.effectiveness ≤ b.effectiveness)
        (byEff.filter (fun p => 3 ≤ p.stat.usage))).take 5
    libraryStats := getPatternLibraryStats lib
    totalPatterns := patternMetrics.length
    averageEffectiveness :=
      if 0 < patternMetrics.length then
        jsRound (patternMetrics.foldl (fun acc p => acc + p.effectiveness) 0)
          patternMetrics.length
      else 0 }

/-- `result.project || 'unknown'`: the grouping key of
`calculateComparativeMetrics`. -/
def projectKeyOf (r : VRecord) : String :=
  (jsOrStr r.project (some "unknown")).getD "unknown"

/-- The project keys in Map-insertion order (first occurrence). -/
def projectKeys (rs : List VRecord) : List String :=
  rs.foldl (fun acc r =>
    let k := projectKeyOf r
    if acc.contains k then acc else acc ++ [k]) []

/-- The `projectGroups` Map: each key with its records, both in encounter
order. -/
def projectGroups (rs : List VRecord) : List (String × List VRecord) :=
  (projectKeys rs).map (fun k => (k, rs.filter (fun r => projectKeyOf r == k)))

/-- One entry of `comparisons` in `calculateComparativeMetrics` (overview
fields spread in, plus the two performance numbers and `lastValidation`). -/
structure ProjectComparison where
  project : String
  isCurrent : Bool
  overview : OverviewMetrics
  averageExecutionTime : Int
  totalTestsExecuted : Int
  lastValidation : Option Int
  deriving DecidableEq, Repr

/-- Build the comparison entry for one qualifying project. -/
def mkComparison (now : Int) (currentProject : Option String) (name : String)
    (results : List VRecord) : ProjectComparison :=
  let overview := calculateOverviewMetrics now results
  let performance := calculatePerformanceMetrics results
  { project := name
    isCurrent := currentProject == some name
    overview := overview
    averageExecutionTime := performance.averageExecutionTime
    totalTestsExecuted := performance.totalTestsExecuted
    lastValidation := (results.getLast?).map (fun r => r.timestamp) }

/-- The `industryAverage` object. -/
structure IndustryAverage where
  qualityScore : Nat
  successRate : Nat
  deriving DecidableEq, Repr

/-- Result of `calculateComparativeMetrics`. -/
structure ComparativeMetrics where
  projects : List ProjectComparison
  totalProjects : Nat
  currentProjectRank : Option Nat
  industryAverage : IndustryAverage
  deriving DecidableEq, Repr

/-- The zeroed structure returned by the `catch` branch of
`calculateComparativeMetrics`. -/
def comparativeFallback : ComparativeMetrics :=
  { projects := []
    totalProjects := 0
    currentProjectRank := none
    industryAverage := { qualityScore := 0, successRate := 0 } }

/-- `MetricsService.calculateComparativeMetrics(currentResults,
currentProject)`: reload ALL results (unfiltered), group by project, skip
groups smaller than 5, sort descending by quality score (stable), rank the
current project by `findIndex(...) + 1` (`0` when `findIndex` is `-1`), or
`null` rank when no current project is given.  Any failure is caught and
mapped to `comparativeFallback`.  `currentResults` is accepted and unused,
as in the source. -/
def calculateComparativeMetrics (now : Int) (store : Store)
    (currentResults : List VRecord) (currentProject : Option String) :
    ComparativeMetrics :=
  match loadValidationResults store none none with
  | .error _ => comparativeFallback
  | .ok allResults =>
    let comparisons := (projectGroups allResults).filterMap (fun g =>
      if g.2.length < 5 then none
      else some (mkComparison now currentProject g.1 g.2))
    let sorted := jsSort
      (fun a b => b.overview.qualityScore ≤ a.overview.qualityScore) comparisons
    let currentRank : Option Nat :=
      match currentProject with
      | some p =>
        if p ≠ "" then
          some (if sorted.any (fun c => c.project == p) then
            sorted.findIdx (fun c => c.project == p) + 1 else 0)
        else none
      | none => none
    { projects := sorted
      totalProjects := sorted.length
      currentProjectRank := currentRank
      industryAverage :=
        { qualityScore :=
            if 0 < sorted.length then
              jsRound (sorted.foldl (fun acc p => acc + p.overview.qualityScore) 0)
                sorted.length
            else 0
          successRate :=
            if 0 < sorted.length then
              jsRound (sorted.foldl (fun acc p => acc + p.overview.successRate) 0)
                sorted.length
            else 0 } }

/-- The assembled `MetricsSnapshot` (`timestamp` is the moment of
computation, standing for the ISO string). -/
structure Snapshot where
  overview : OverviewMetrics
  trends : List TrendBucket
  patterns : PatternMetricsResult
  performance : PerformanceMetrics
  health : HealthMetrics
  comparative : ComparativeMetrics
  timestamp : Int
  project : Option String
  timeframe : Nat
  deriving DecidableEq, Repr

/-- One value of `metricsCache`: `{data, timestamp}`. -/
structure CacheEntry where
  data : Snapshot
  timestamp : Int
  deriving DecidableEq, Repr

/-- State of a `MetricsService` instance: the two backing stores and the
cache Map (an association list in key-insertion order). -/
structure MetricsService where
  store : Store
  patternLib : PatternLib
  metricsCache : List (String × CacheEntry)
  deriving DecidableEq, Repr

/-- `this.cacheTimeout = 5 * 60 * 1000`. -/
def cacheTimeout : Int := 5 * 60 * 1000

/-- The cache key `` quality-${projectName || 'global'}-${timeframe} ``. -/
def cacheKey (projectName : Option String) (timeframe : Nat) : String :=
  "quality-" ++ (jsOrStr projectName (some "global")).getD "global"
    ++ "-" ++ toString timeframe

/-- `Map.get` on the association-list cache. -/
def lookupCache (key : String) : List (String × CacheEntry) → Option CacheEntry
  | [] => none
  | (k, e) :: rest => if k = key then some e else lookupCache key rest

/-- `Map.set`: replace in place when the key exists, else append. -/
def setCache (key : String) (e : CacheEntry)
    (cache : List (String × CacheEntry)) : List (String × CacheEntry) :=
  if cache.any (fun kv => kv.1 = key) then
    cache.map (fun kv => if kv.1 = key then (key, e) else kv)
  else cache ++ [(key, e)]

/-- The snapshot assembly of `calculateQualityMetrics` (the body of its
`try` block): load the filtered records, run the six calculators.  A
directory-level load failure propagates (it is re-thrown wrapped by the
`catch`). -/
def computeSnapshot (svc : MetricsService) (now : Int)
    (projectName : Option String) (timeframe : Nat) : Except Unit Snapshot :=
  let cutoffDate := now - (timeframe : Int) * msPerDay
  match loadValidationResults svc.store projectName (some cutoffDate) with
  | .error e => .error e
  | .ok validationResults =>
    .ok { overview := calculateOverviewMetrics now validationResults
          trends := calculateTrendMetrics now validationResults timeframe
          patterns := calculatePatternMetrics svc.patternLib validationResults
          performance := calculatePerformanceMetrics validationResults
          health := calculateHealthMetrics now validationResults
          comparative :=
            calculateComparativeMetrics now svc.store validationResults projectName
          timestamp := now
          project := projectName
          timeframe := timeframe }

/-- `MetricsService.calculateQualityMetrics(projectName, timeframe)`: serve
from cache when the entry is younger than the timeout (strict
`now - cached.timestamp < cacheTimeout`), otherwise recompute and store.
Returns the response (or propagated error) together with the new service
state. -/
def calculateQualityMetrics (svc : MetricsService) (now : Int)
    (projectName : Option String) (timeframe : Nat) :
    Except Unit Snapshot × MetricsService :=
  let key := cacheKey projectName timeframe
  let fresh : Option Snapshot :=
    match lookupCache key svc.metricsCache with
    | some cached =>
      if now - cached.timestamp < cacheTimeout then some cached.data else none
    | none => none
  match fresh with
  | some data => (.ok data, svc)
  | none =>
    match computeSnapshot svc now projectName timeframe with
    | .error e => (.error e, svc)
    | .ok metrics =>
      (.ok metrics,
        { svc with
            metricsCache :=
              setCache key { data := metrics, timestamp := now } svc.metricsCache })

/-- `MetricsService.clearCache()`. -/
def clearCache (svc : MetricsService) : MetricsService :=
  { svc with metricsCache := [] }

/-! Concrete fixtures used by the closed witness and counterexample
theorems below. -/

/-- An empty but readable validation-results directory. -/
def emptyStoreFx : Store := { dirReadable := true, files := [] }

/-- An unreadable validation-results directory. -/
def badStoreFx : Store := { dirReadable := false, files := [] }

/-- A pattern catalog with no library files. -/
def emptyLibFx : PatternLib := { universal := none, backend := none, frontend := none }

/-- A service over the unreadable store with an empty cache. -/
def svcBadFx : MetricsService :=
  { store := badStoreFx, patternLib := emptyLibFx, metricsCache := [] }

/-- A successful record with no optional data. -/
def recSuccessFx : VRecord :=
  { project := none
    timestamp := 0
    status := .success
    executionTime := none
    testCount := none
    totalTests := none
    patterns := [] }

/-- A failing record (otherwise like `recSuccessFx`). -/
def recFailureFx : VRecord := { recSuccessFx with status := .failure }

/-- A warning record (otherwise like `recSuccessFx`). -/
def recWarningFx : VRecord := { recSuccessFx with status := .warning }

/-- A record with a positive execution time. -/
def recExecFx : VRecord := { recSuccessFx with executionTime := some 100 }

/-- A record whose `executionTime` is present but `0` (a defined value that
JS truthiness filtering drops). -/
def recExecZeroFx : VRecord :=
  { recSuccessFx with timestamp := 1, executionTime := some 0 }

/-- A record carrying a test count. -/
def recTestFx : VRecord := { recSuccessFx with testCount := some 5 }

/-- A readable result file of project "alpha" at timestamp `ts`. -/
def fileEntryFx (ts : Int) : FileEntry :=
  { isJson := true
    readable := true
    data := { project := some "alpha", timestamp := some ts, status := .success,
              executionTime := none, testCount := none, totalTests := none,
              patterns := [] }
    mtime := 0 }

/-- A store holding five records of the single project "alpha" (enough to
qualify for comparative ranking). -/
def storeProjFx : Store :=
  { dirReadable := true
    files := [fileEntryFx 1, fileEntryFx 2, fileEntryFx 3, fileEntryFx 4,
              fileEntryFx 5] }

/-- An arbitrary, recognisable snapshot used as pre-existing cache content
(its `timeframe = 999` distinguishes it from anything recomputed). -/
def snapDummyFx : Snapshot :=
  { overview := calculateOverviewMetrics 0 []
    trends := []
    patterns := calculatePatternMetrics emptyLibFx []
    performance := calculatePerformanceMetrics []
    health := calculateHealthMetrics 0 []
    comparative := comparativeFallback
    timestamp := 0
    project := none
    timeframe := 999 }

/-- A service whose cache holds `snapDummyFx` for the global/30-day key,
computed at instant `0`. -/
def svcCachedFx : MetricsService :=
  { store := emptyStoreFx
    patternLib := emptyLibFx
    metricsCache := [(cacheKey none 30, { data := snapDummyFx, timestamp := 0 })] }

/-! Helper lemmas. -/

/-- `jsRound` is monotone in the numerator. -/
theorem jsRound_mono {a b : Nat} (den : Nat) (h : a ≤ b) :
    jsRound a den ≤ jsRound b den := by
  unfold jsRound
  exact Nat.div_le_div_right (by omega)

/-- Lower multiple bound of `jsRound`. -/
theorem jsRound_mul_le (num den : Nat) :
    jsRound num den * (2 * den) ≤ 2 * num + den := by
  unfold jsRound
  exact Nat.div_mul_le_self _ _

/-- Upper multiple bound of `jsRound`. -/
theorem lt_jsRound_succ_mul (num den : Nat) (h : 0 < den) :
    2 * num + den < (jsRound num den + 1) * (2 * den) := by
  unfold jsRound
  exact (Nat.div_lt_iff_lt_mul (by omega)).mp (Nat.lt_succ_self _)

/-- Three percentage roundings of a partition of `t` sum to `100 ± 1`. -/
theorem jsRound_partition_sum {a b c t : Nat} (h : a + b + c = t) (ht : 0 < t) :
    99 ≤ jsRound (100 * a) t + jsRound (100 * b) t + jsRound (100 * c) t ∧
    jsRound (100 * a) t + jsRound (100 * b) t + jsRound (100 * c) t ≤ 101 := by
  have la := jsRound_mul_le (100 * a) t
  have lb := jsRound_mul_le (100 * b) t
  have lc := jsRound_mul_le (100 * c) t
  have ua := lt_jsRound_succ_mul (100 * a) t ht
  have ub := lt_jsRound_succ_mul (100 * b) t ht
  have uc := lt_jsRound_succ_mul (100 * c) t ht
  set qa := jsRound (100 * a) t
  set qb := jsRound (100 * b) t
  set qc := jsRound (100 * c) t
  constructor
  · by_contra hc
    push_neg at hc
    -- then qa + qb + qc + 3 ≤ 101, so the strict upper bounds yield
    -- 203 * t < 101 * (2 * t)
    have h1 : (2 * (100 * a) + t) + (2 * (100 * b) + t) + (2 * (100 * c) + t)
        < (qa + qb + qc + 3) * (2 * t) := by nlinarith
    have h2 : (qa + qb + qc + 3) * (2 * t) ≤ 101 * (2 * t) :=
      Nat.mul_le_mul_right _ (by omega)
    have h3 : (2 * (100 * a) + t) + (2 * (100 * b) + t) + (2 * (100 * c) + t)
        < 101 * (2 * t) := lt_of_lt_of_le h1 h2
    omega
  · by_contra hc
    push_neg at hc
    -- then 102 ≤ qa + qb + qc, so the lower bounds yield
    -- 102 * (2 * t) ≤ 203 * t
    have h1 : 102 * (2 * t) ≤ (qa + qb + qc) * (2 * t) :=
      Nat.mul_le_mul_right _ (by omega)
    have h2 : (qa + qb + qc) * (2 * t)
        ≤ (2 * (100 * a) + t) + (2 * (100 * b) + t) + (2 * (100 * c) + t) := by
      nlinarith
    have h3 : 102 * (2 * t)
        ≤ (2 * (100 * a) + t) + (2 * (100 * b) + t) + (2 * (100 * c) + t) :=
      le_trans h1 h2
    omega

/-- `countStatus` distributes over append. -/
theorem countStatus_append (s : Status) (l₁ l₂ : List VRecord) :
    countStatus s (l₁ ++ l₂) = countStatus s l₁ + countStatus s l₂ := by
  simp [countStatus, List.filter_append]

/-- `countStatus` on a cons. -/
theorem countStatus_cons (s : Status) (r : VRecord) (l : List VRecord) :
    countStatus s (r :: l) =
      (if r.status = s then 1 else 0) + countStatus s l := by
  simp only [countStatus, List.filter_cons]
  by_cases h : r.status = s
  · simp [h, Nat.add_comm]
  · simp [h]

/-- The three recognised statuses partition a record list without `other`
statuses. -/
theorem countStatus_partition (rs : List VRecord)
    (h : ∀ r ∈ rs, r.status ≠ .other) :
    countStatus .success rs + countStatus .failure rs + countStatus .warning rs
      = rs.length := by
  induction rs with
  | nil => simp [countStatus]
  | cons r l ih =>
    have hr : r.status ≠ .other := h r (by simp)
    have ih' := ih (fun x hx => h x (by simp [hx]))
    rw [countStatus_cons, countStatus_cons, countStatus_cons]
    cases hs : r.status <;> simp [hs] at hr ⊢ <;> omega

/-- The quality score of a non-empty record list, unfolded. -/
theorem overview_qualityScore_eq (now : Int) (l : List VRecord) (h : l.length ≠ 0) :
    (calculateOverviewMetrics now l).qualityScore =
      jsRound (100 * countStatus .success l + 50 * countStatus .warning l)
        l.length := by
  simp only [calculateOverviewMetrics]
  rw [if_neg h]

/-- C8: the empty record set yields the all-zero overview with a `stable`
trend and no breakdown, and the `unknown`/score-0 health object with the
single "No validation data available" recommendation; neither computation
can fail (both are total functions returning these values). -/
theorem empty_input_overview_health (now : Int) :
    calculateOverviewMetrics now [] =
      { totalValidations := 0, successRate := 0, failureRate := 0,
        warningRate := 0, qualityScore := 0, trend := .stable,
        breakdown := none } ∧
    calculateHealthMetrics now [] =
      { overall := "unknown", score := 0, indicators := [],
        recommendations := ["No validation data available"],
        lastUpdate := none } :=
  ⟨rfl, rfl⟩

/-- C6: for a non-empty record set whose statuses all lie in
{success, failure, warning}, the three independently rounded percentage
rates sum to within ±1 of 100. -/
theorem overview_rates_sum_within_one (now : Int) (results : List VRecord)
    (hne : results ≠ []) (hst : ∀ r ∈ results, r.status ≠ .other) :
    99 ≤ (calculateOverviewMetrics now results).successRate +
        (calculateOverviewMetrics now results).failureRate +
        (calculateOverviewMetrics now results).warningRate ∧
    (calculateOverviewMetrics now results).successRate +
        (calculateOverviewMetrics now results).failureRate +
        (calculateOverviewMetrics now results).warningRate ≤ 101 := by
  have hlen : results.length ≠ 0 := by
    intro h0
    exact hne (List.eq_nil_of_length_eq_zero h0)
  have hpart := countStatus_partition results hst
  simp only [calculateOverviewMetrics]
  rw [if_neg hlen]
  exact jsRound_partition_sum hpart (Nat.pos_of_ne_zero hlen)

/-- C6 witness at a concrete input. -/
theorem overview_rates_sum_within_one_witness :
    99 ≤ (calculateOverviewMetrics 0 [recSuccessFx]).successRate +
        (calculateOverviewMetrics 0 [recSuccessFx]).failureRate +
        (calculateOverviewMetrics 0 [recSuccessFx]).warningRate ∧
    (calculateOverviewMetrics 0 [recSuccessFx]).successRate +
        (calculateOverviewMetrics 0 [recSuccessFx]).failureRate +
        (calculateOverviewMetrics 0 [recSuccessFx]).warningRate ≤ 101 :=
  overview_rates_sum_within_one 0 [recSuccessFx] (by decide) (by decide)

/-- C7: reclassifying one record from `failure` to `warning` cannot
decrease the quality score, and reclassifying one record from `warning` to
`success` cannot decrease it either (any position in the list). -/
theorem qualityScore_monotone_reclassify (now : Int) (l₁ l₂ : List VRecord)
    (r : VRecord) :
    (r.status = .failure →
      (calculateOverviewMetrics now (l₁ ++ r :: l₂)).qualityScore ≤
        (calculateOverviewMetrics now
          (l₁ ++ { r with status := .warning } :: l₂)).qualityScore) ∧
    (r.status = .warning →
      (calculateOverviewMetrics now (l₁ ++ r :: l₂)).qualityScore ≤
        (calculateOverviewMetrics now
          (l₁ ++ { r with status := .success } :: l₂)).qualityScore) := by
  have hlen : (l₁ ++ r :: l₂).length ≠ 0 := by simp
  constructor
  · intro hr
    have hlen' : (l₁ ++ { r with status := Status.warning } :: l₂).length ≠ 0 := by
      simp
    rw [overview_qualityScore_eq now _ hlen, overview_qualityScore_eq now _ hlen']
    have he : (l₁ ++ { r with status := Status.warning } :: l₂).length
        = (l₁ ++ r :: l₂).length := by simp
    rw [he]
    apply jsRound_mono
    rw [countStatus_append, countStatus_append, countStatus_append,
      countStatus_append, countStatus_cons, countStatus_cons,
      countStatus_cons, countStatus_cons]
    simp [hr]
  · intro hr
    have hlen' : (l₁ ++ { r with status := Status.success } :: l₂).length ≠ 0 := by
      simp
    rw [overview_qualityScore_eq now _ hlen, overview_qualityScore_eq now _ hlen']
    have he : (l₁ ++ { r with status := Status.success } :: l₂).length
        = (l₁ ++ r :: l₂).length := by simp
    rw [he]
    apply jsRound_mono
    rw [countStatus_append, countStatus_append, countStatus_append,
      countStatus_append, countStatus_cons, countStatus_cons,
      countStatus_cons, countStatus_cons]
    simp [hr]
    omega

/-- C7 witness at a concrete input. -/
theorem qualityScore_monotone_reclassify_witness :
    (calculateOverviewMetrics 0 ([] ++ recFailureFx :: [])).qualityScore ≤
      (calculateOverviewMetrics 0
        ([] ++ { recFailureFx with status := .warning } :: [])).qualityScore ∧
    (calculateOverviewMetrics 0 ([] ++ recWarningFx :: [])).qualityScore ≤
      (calculateOverviewMetrics 0
        ([] ++ { recWarningFx with status := .success } :: [])).qualityScore :=
  ⟨(qualityScore_monotone_reclassify 0 [] [] recFailureFx).1 (by decide),
   (qualityScore_monotone_reclassify 0 [] [] recWarningFx).2 (by decide)⟩

/-- The overview carries a breakdown exactly for non-empty input. -/
theorem overview_breakdown_iff (now : Int) (l : List VRecord) :
    (calculateOverviewMetrics now l).breakdown.isSome ↔ l ≠ [] := by
  cases l with
  | nil => simp [calculateOverviewMetrics]
  | cons a l => simp [calculateOverviewMetrics]

/-- Every element of the trend loop is the bucket of some loop counter
`j ≤ i`. -/
theorem trendLoop_mem (now : Int) (results : List VRecord) (d : Nat) :
    ∀ fuel i b, b ∈ trendLoop now results d fuel i →
      ∃ j, j ≤ i ∧ b = trendBucketAt now results d j := by
  intro fuel
  induction fuel with
  | zero =>
    intro i b hb
    simp [trendLoop] at hb
  | succ fuel ih =>
    intro i b hb
    simp only [trendLoop] at hb
    rcases List.mem_cons.mp hb with h | h
    · exact ⟨i, le_refl i, h⟩
    · by_cases hcond : 1 ≤ d ∧ d ≤ i
      · rw [if_pos hcond] at h
        obtain ⟨j, hj, hbj⟩ := ih (i - d) b h
        exact ⟨j, le_trans hj (Nat.sub_le i d), hbj⟩
      · rw [if_neg hcond] at h
        simp at h

/-- C10: `calculateOverviewMetrics` emits a `breakdown` field iff its input
is non-empty; consequently a trend bucket carries a breakdown iff some
record falls inside its `[rangeStart, rangeEnd)` period. -/
theorem breakdown_presence (now : Int) (l : List VRecord) (timeframe : Nat) :
    ((calculateOverviewMetrics now l).breakdown.isSome ↔ l ≠ []) ∧
    ∀ b ∈ calculateTrendMetrics now l timeframe,
      (b.overview.breakdown.isSome ↔
        l.filter (fun r => b.rangeStart ≤ r.timestamp && r.timestamp < b.rangeEnd)
          ≠ []) := by
  refine ⟨overview_breakdown_iff now l, ?_⟩
  intro b hb
  simp only [calculateTrendMetrics] at hb
  obtain ⟨j, hj, rfl⟩ := trendLoop_mem now l _ _ _ b hb
  simp only [trendBucketAt]
  exact overview_breakdown_iff now _

/-- C10 witness at a concrete input. -/
theorem breakdown_presence_witness :
    ((calculateOverviewMetrics 0 [recSuccessFx]).breakdown.isSome ↔
      [recSuccessFx] ≠ []) ∧
    ((trendBucketAt 0 [recSuccessFx] 1 0).overview.breakdown.isSome ↔
      [recSuccessFx].filter (fun r =>
        (trendBucketAt 0 [recSuccessFx] 1 0).rangeStart ≤ r.timestamp &&
          r.timestamp < (trendBucketAt 0 [recSuccessFx] 1 0).rangeEnd) ≠ []) :=
  ⟨(breakdown_presence 0 [recSuccessFx] 0).1,
   (breakdown_presence 0 [recSuccessFx] 0).2
     (trendBucketAt 0 [recSuccessFx] 1 0) (by decide)⟩

/-- Length of the trend loop: one bucket per loop iteration,
`i / d + 1` in total. -/
theorem trendLoop_length (now : Int) (results : List VRecord) {d : Nat}
    (hd : 1 ≤ d) :
    ∀ fuel i, i < fuel → (trendLoop now results d fuel i).length = i / d + 1 := by
  intro fuel
  induction fuel with
  | zero => intro i h; omega
  | succ fuel ih =>
    intro i hi
    simp only [trendLoop]
    by_cases hcond : 1 ≤ d ∧ d ≤ i
    · rw [if_pos hcond]
      have hrec := ih (i - d) (by omega)
      simp only [List.length_cons, hrec]
      have key : i / d = (i - d) / d + 1 := by
        conv_lhs => rw [show i = (i - d) + d by omega]
        exact Nat.add_div_right _ (by omega)
      rw [key]
    · rw [if_neg hcond]
      have hlt : i < d := by omega
      simp [Nat.div_eq_of_lt hlt]

/-- Every bucket of the loop at counter `i` has `periodEnd` at least
`now - i` days. -/
theorem trendLoop_periodEnd_ge (now : Int) (results : List VRecord) (d : Nat) :
    ∀ fuel i b, b ∈ trendLoop now results d fuel i →
      now - (i : Int) * msPerDay ≤ b.periodEnd := by
  intro fuel i b hb
  obtain ⟨j, hj, rfl⟩ := trendLoop_mem now results d fuel i b hb
  simp only [trendBucketAt]
  have hle : (j : Int) * msPerDay ≤ (i : Int) * msPerDay := by
    apply mul_le_mul_of_nonneg_right
    · exact_mod_cast hj
    · norm_num [msPerDay]
  omega

/-- The trend loop emits buckets with strictly increasing `periodEnd`
(oldest first). -/
theorem trendLoop_pairwise (now : Int) (results : List VRecord) {d : Nat}
    (hd : 1 ≤ d) :
    ∀ fuel i, List.Pairwise (fun a b => a.periodEnd < b.periodEnd)
      (trendLoop now results d fuel i) := by
  intro fuel
  induction fuel with
  | zero => intro i; simp [trendLoop]
  | succ fuel ih =>
    intro i
    simp only [trendLoop]
    by_cases hcond : 1 ≤ d ∧ d ≤ i
    · rw [if_pos hcond]
      refine List.Pairwise.cons ?_ (ih (i - d))
      intro b hb
      have hge := trendLoop_periodEnd_ge now results d fuel (i - d) b hb
      simp only [trendBucketAt]
      have hlt : ((i - d : Nat) : Int) * msPerDay < (i : Int) * msPerDay := by
        apply mul_lt_mul_of_pos_right
        · exact_mod_cast (show i - d < i by omega)
        · norm_num [msPerDay]
      omega
    · rw [if_neg hcond]
      simp

/-- C2 (amended): with bucket width `d = max(1, ⌊timeframe/10⌋)` days, the
trend metrics list has exactly `⌊timeframe/d⌋ + 1` buckets (which can
exceed 11, up to 20), each of width `d` days, emitted oldest-first
(strictly increasing period ends) and starting at
`now − timeframe` days. -/
theorem trendMetrics_bucket_structure (now : Int) (results : List VRecord)
    (timeframe : Nat) (h : 1 ≤ timeframe) :
    (calculateTrendMetrics now results timeframe).length
        = timeframe / max 1 (timeframe / 10) + 1 ∧
    (∀ b ∈ calculateTrendMetrics now results timeframe,
        b.rangeEnd - b.rangeStart
          = ((max 1 (timeframe / 10) : Nat) : Int) * msPerDay) ∧
    List.Pairwise (fun a b => a.periodEnd < b.periodEnd)
        (calculateTrendMetrics now results timeframe) ∧
    ((calculateTrendMetrics now results timeframe).head?).map
        TrendBucket.periodEnd = some (now - (timeframe : Int) * msPerDay) := by
  have hd : 1 ≤ max 1 (timeframe / 10) := le_max_left _ _
  refine ⟨?_, ?_, ?_, ?_⟩
  · exact trendLoop_length now results hd (timeframe + 1) timeframe
      (Nat.lt_succ_self _)
  · intro b hb
    simp only [calculateTrendMetrics] at hb
    obtain ⟨j, hj, rfl⟩ := trendLoop_mem now results _ _ _ b hb
    simp only [trendBucketAt]
    ring
  · exact trendLoop_pairwise now results hd (timeframe + 1) timeframe
  · simp [calculateTrendMetrics, trendLoop, trendBucketAt]

/-- C2 witness at a concrete input (timeframe 30: 11 buckets of 3 days). -/
theorem trendMetrics_bucket_structure_witness :
    (calculateTrendMetrics 0 [] 30).length = 30 / max 1 (30 / 10) + 1 ∧
    (∀ b ∈ calculateTrendMetrics 0 [] 30,
        b.rangeEnd - b.rangeStart = ((max 1 (30 / 10) : Nat) : Int) * msPerDay) ∧
    List.Pairwise (fun a b => a.periodEnd < b.periodEnd)
        (calculateTrendMetrics 0 [] 30) ∧
    ((calculateTrendMetrics 0 [] 30).head?).map TrendBucket.periodEnd
        = some (0 - (30 : Int) * msPerDay) :=
  trendMetrics_bucket_structure 0 [] 30 (by decide)

/-- C2 counterexample: at `timeframe = 19` the loop emits 20 buckets, so the
claimed "at most 11 buckets" bound is false. -/
theorem trendMetrics_eleven_bucket_counterexample :
    (calculateTrendMetrics 0 [] 19).length = 20 ∧
    ¬((calculateTrendMetrics 0 [] 19).length ≤ 11) := by
  constructor
  · decide
  · decide

/-- `executionTimesOf` distributes over append. -/
theorem executionTimesOf_append (l₁ l₂ : List VRecord) :
    executionTimesOf (l₁ ++ l₂) = executionTimesOf l₁ ++ executionTimesOf l₂ := by
  simp [executionTimesOf, List.filterMap_append, List.filter_append]

/-- `testCountsOf` distributes over append. -/
theorem testCountsOf_append (l₁ l₂ : List VRecord) :
    testCountsOf (l₁ ++ l₂) = testCountsOf l₁ ++ testCountsOf l₂ := by
  simp [testCountsOf, List.filterMap_append, List.filter_append]

/-- C5 (amended): a record contributes to the execution-time statistics
exactly when its `executionTime` is present AND non-zero — a record lacking
the field, or carrying a defined `0`, is excluded (never counted as zero);
likewise a record contributes to the test-count statistics exactly when
`testCount || totalTests` is present and non-zero. -/
theorem performance_field_filtering (l : List VRecord) (r : VRecord) :
    ((r.executionTime = none ∨ r.executionTime = some 0) →
      (calculatePerformanceMetrics (l ++ [r])).averageExecutionTime =
          (calculatePerformanceMetrics l).averageExecutionTime ∧
      (calculatePerformanceMetrics (l ++ [r])).medianExecutionTime =
          (calculatePerformanceMetrics l).medianExecutionTime ∧
      (calculatePerformanceMetrics (l ++ [r])).maxExecutionTime =
          (calculatePerformanceMetrics l).maxExecutionTime ∧
      (calculatePerformanceMetrics (l ++ [r])).minExecutionTime =
          (calculatePerformanceMetrics l).minExecutionTime) ∧
    (∀ t, r.executionTime = some t → t ≠ 0 →
      executionTimesOf (l ++ [r]) = executionTimesOf l ++ [t]) ∧
    ((jsOrNum r.testCount r.totalTests = none ∨
        jsOrNum r.testCount r.totalTests = some 0) →
      (calculatePerformanceMetrics (l ++ [r])).averageTestCount =
          (calculatePerformanceMetrics l).averageTestCount ∧
      (calculatePerformanceMetrics (l ++ [r])).totalTestsExecuted =
          (calculatePerformanceMetrics l).totalTestsExecuted) ∧
    (∀ t, jsOrNum r.testCount r.totalTests = some t → t ≠ 0 →
      testCountsOf (l ++ [r]) = testCountsOf l ++ [t]) := by
  refine ⟨?_, ?_, ?_, ?_⟩
  · intro h
    have hexec : executionTimesOf (l ++ [r]) = executionTimesOf l := by
      rw [executionTimesOf_append]
      rcases h with h | h <;>
        simp [executionTimesOf, List.filterMap_cons, h]
    refine ⟨?_, ?_, ?_, ?_⟩ <;> simp [calculatePerformanceMetrics, hexec]
  · intro t ht hne
    rw [executionTimesOf_append]
    simp [executionTimesOf, List.filterMap_cons, ht, hne]
  · intro h
    have htc : testCountsOf (l ++ [r]) = testCountsOf l := by
      rw [testCountsOf_append]
      rcases h with h | h <;>
        simp [testCountsOf, List.filterMap_cons, h]
    refine ⟨?_, ?_⟩ <;> simp [calculatePerformanceMetrics, htc]
  · intro t ht hne
    rw [testCountsOf_append]
    simp [testCountsOf, List.filterMap_cons, ht, hne]

/-- C5 witness at concrete inputs, exercising all four clauses. -/
theorem performance_field_filtering_witness :
    ((calculatePerformanceMetrics ([recExecFx] ++ [recExecZeroFx])).averageExecutionTime =
        (calculatePerformanceMetrics [recExecFx]).averageExecutionTime) ∧
    executionTimesOf ([recExecZeroFx] ++ [recExecFx]) =
        executionTimesOf [recExecZeroFx] ++ [100] ∧
    ((calculatePerformanceMetrics ([recTestFx] ++ [recExecFx])).averageTestCount =
        (calculatePerformanceMetrics [recTestFx]).averageTestCount) ∧
    testCountsOf ([recExecFx] ++ [recTestFx]) = testCountsOf [recExecFx] ++ [5] :=
  ⟨((performance_field_filtering [recExecFx] recExecZeroFx).1
      (Or.inr (by decide))).1,
   (performance_field_filtering [recExecZeroFx] recExecFx).2.1 100
      (by decide) (by decide),
   ((performance_field_filtering [recTestFx] recExecFx).2.2.1
      (Or.inl (by decide))).1,
   (performance_field_filtering [recExecFx] recTestFx).2.2.2 5
      (by decide) (by decide)⟩

/-- C5 counterexample: a record with a DEFINED `executionTime` of `0` is
dropped by `filter(Boolean)`: with times `[100, 0]` the claimed statistics
would be `min = 0` and `average = round(100/2) = 50`, but the code reports
`min = average = 100`. -/
theorem performance_zero_execution_counterexample :
    recExecZeroFx.executionTime = some 0 ∧
    (calculatePerformanceMetrics [recExecFx, recExecZeroFx]).minExecutionTime
        = 100 ∧
    (calculatePerformanceMetrics [recExecFx, recExecZeroFx]).averageExecutionTime
        = 100 := by
  refine ⟨?_, ?_, ?_⟩ <;> decide

/-- C3 (amended): a directory-level failure (`ensureDir`/`readdir`) is NOT
caught: `loadValidationResults` raises and `calculateQualityMetrics`
re-throws (wrapped) on a cache miss; only individually unreadable files
are skipped, so a listable directory whose files are all unreadable yields
the empty sequence. -/
theorem load_unreadable_semantics (store : Store) (p : Option String)
    (c : Option Int) (svc : MetricsService) (now : Int) (tf : Nat) :
    (store.dirReadable = false → loadValidationResults store p c = .error ()) ∧
    (svc.store.dirReadable = false → svc.metricsCache = [] →
      calculateQualityMetrics svc now p tf = (.error (), svc)) ∧
    (store.dirReadable = true → (∀ f ∈ store.files, f.readable = false) →
      loadValidationResults store p c = .ok []) := by
  refine ⟨?_, ?_, ?_⟩
  · intro h
    simp [loadValidationResults, h]
  · intro h hcache
    simp [calculateQualityMetrics, hcache, lookupCache, computeSnapshot,
      loadValidationResults, h]
  · intro h hf
    have hfm : (store.files.filter (fun e => e.isJson)).filterMap (fun e =>
        if e.readable then
          let r := normalizeEntry e
          if keepRecord p c r then some r else none
        else none) = [] := by
      rw [List.filterMap_eq_nil]
      intro e he
      have : e.readable = false := hf e (List.mem_of_mem_filter he)
      simp [this]
    simp [loadValidationResults, h, hfm, jsSort]

/-- C3 witness at concrete inputs. -/
theorem load_unreadable_semantics_witness :
    loadValidationResults badStoreFx none none = .error () ∧
    calculateQualityMetrics svcBadFx 0 none 30 = (.error (), svcBadFx) ∧
    loadValidationResults emptyStoreFx none none = .ok [] :=
  ⟨(load_unreadable_semantics badStoreFx none none svcBadFx 0 30).1 (by decide),
   (load_unreadable_semantics badStoreFx none none svcBadFx 0 30).2.1
     (by decide) (by decide),
   (load_unreadable_semantics emptyStoreFx none none svcBadFx 0 30).2.2
     (by decide) (by decide)⟩

/-- C3 counterexample: with an unreadable backing store the loader does NOT
return an empty sequence — it raises, and the snapshot computation fails
rather than degrading to a "no data" result. -/
theorem load_unreadable_counterexample :
    loadValidationResults badStoreFx none none ≠ .ok [] ∧
    loadValidationResults badStoreFx none none = .error () ∧
    (calculateQualityMetrics svcBadFx 0 none 30).1 = .error () := by
  refine ⟨?_, ?_, ?_⟩ <;> decide

/-- C9: when its internal (unfiltered) record load fails,
`calculateComparativeMetrics` returns the well-formed zeroed structure
instead of propagating the error. -/
theorem comparative_error_fallback (now : Int) (store : Store)
    (cur : List VRecord) (p : Option String)
    (h : store.dirReadable = false) :
    calculateComparativeMetrics now store cur p = comparativeFallback := by
  simp [calculateComparativeMetrics, loadValidationResults, h]

/-- C9 witness at a concrete input. -/
theorem comparative_error_fallback_witness :
    calculateComparativeMetrics 0 badStoreFx [] none = comparativeFallback :=
  comparative_error_fallback 0 badStoreFx [] none (by decide)

/-- Membership in `jsSortInsert`. -/
theorem jsSortInsert_mem {α : Type} (le : α → α → Bool) (a x : α) (l : List α) :
    x ∈ jsSortInsert le a l ↔ x = a ∨ x ∈ l := by
  induction l with
  | nil => simp [jsSortInsert]
  | cons b l ih =>
    simp only [jsSortInsert]
    by_cases h : le a b = true
    · rw [if_pos h]
      simp
    · rw [if_neg h]
      simp only [List.mem_cons, ih]
      tauto

/-- Membership is preserved by `jsSort`. -/
theorem jsSort_mem {α : Type} (le : α → α → Bool) (x : α) (l : List α) :
    x ∈ jsSort le l ↔ x ∈ l := by
  induction l with
  | nil => simp [jsSort]
  | cons a l ih => simp [jsSort, jsSortInsert_mem, ih]

/-- `jsSortInsert` preserves sortedness for a transitive, total comparator. -/
theorem jsSortInsert_pairwise {α : Type} (le : α → α → Bool)
    (htrans : ∀ a b c, le a b = true → le b c = true → le a c = true)
    (htotal : ∀ a b, le a b = true ∨ le b a = true) (a : α) (l : List α)
    (hl : List.Pairwise (fun x y => le x y = true) l) :
    List.Pairwise (fun x y => le x y = true) (jsSortInsert le a l) := by
  induction l with
  | nil => simp [jsSortInsert]
  | cons b l ih =>
    rcases List.pairwise_cons.mp hl with ⟨hb, hl'⟩
    simp only [jsSortInsert]
    by_cases h : le a b = true
    · rw [if_pos h]
      refine List.Pairwise.cons ?_ hl
      intro x hx
      rcases List.mem_cons.mp hx with rfl | hx
      · exact h
      · exact htrans a b x h (hb x hx)
    · rw [if_neg h]
      refine List.Pairwise.cons ?_ (ih hl')
      intro x hx
      rcases (jsSortInsert_mem le a x l).mp hx with hxa | hx
      · rcases htotal a b with h' | h'
        · exact absurd h' h
        · rw [hxa]
          exact h'
      · exact hb x hx

/-- `jsSort` sorts: its output is pairwise ordered by a transitive, total
comparator. -/
theorem jsSort_pairwise {α : Type} (le : α → α → Bool)
    (htrans : ∀ a b c, le a b = true → le b c = true → le a c = true)
    (htotal : ∀ a b, le a b = true ∨ le b a = true) (l : List α) :
    List.Pairwise (fun x y => le x y = true) (jsSort le l) := by
  induction l with
  | nil => simp [jsSort]
  | cons a l ih => exact jsSortInsert_pairwise le htrans htotal a _ ih

/-- C1 (amended): with a readable store, `calculateComparativeMetrics`
lists exactly the projects with at least 5 records, sorted descending by
quality score; `currentProjectRank` is the 1-based position of the current
project when it occurs in that list, `some 0` (not `null`) when a current
project is named but absent/unranked (`findIndex` returns `-1`), and
`null` only when no current project is given. -/
theorem comparative_rank_semantics (now : Int) (store : Store)
    (cur : List VRecord) (p : Option String) (allResults : List VRecord)
    (hload : loadValidationResults store none none = .ok allResults) :
    List.Pairwise
        (fun a b => b.overview.qualityScore ≤ a.overview.qualityScore)
        (calculateComparativeMetrics now store cur p).projects ∧
    (∀ c ∈ (calculateComparativeMetrics now store cur p).projects,
        ∃ g ∈ projectGroups allResults, g.1 = c.project ∧ 5 ≤ g.2.length) ∧
    (p = none →
        (calculateComparativeMetrics now store cur p).currentProjectRank = none) ∧
    (∀ name, p = some name → name ≠ "" →
      ((∃ c ∈ (calculateComparativeMetrics now store cur p).projects,
          c.project = name) →
        ∃ k, (calculateComparativeMetrics now store cur p).currentProjectRank
              = some (k + 1) ∧
          ∃ c, (calculateComparativeMetrics now store cur p).projects[k]?
              = some c ∧ c.project = name) ∧
      ((∀ c ∈ (calculateComparativeMetrics now store cur p).projects,
          c.project ≠ name) →
        (calculateComparativeMetrics now store cur p).currentProjectRank
            = some 0)) := by
  have hproj : (calculateComparativeMetrics now store cur p).projects
      = jsSort (fun a b => b.overview.qualityScore ≤ a.overview.qualityScore)
          ((projectGroups allResults).filterMap (fun g =>
            if g.2.length < 5 then none
            else some (mkComparison now p g.1 g.2))) := by
    simp only [calculateComparativeMetrics, hload]
  refine ⟨?_, ?_, ?_, ?_⟩
  · rw [hproj]
    have := jsSort_pairwise
      (fun a b : ProjectComparison =>
        decide (b.overview.qualityScore ≤ a.overview.qualityScore))
      (by intro a b c hab hbc
          simp only [decide_eq_true_eq] at *
          omega)
      (by intro a b
          simp only [decide_eq_true_eq]
          omega)
      ((projectGroups allResults).filterMap (fun g =>
        if g.2.length < 5 then none
        else some (mkComparison now p g.1 g.2)))
    exact this.imp (by intro a b h; simpa using h)
  · intro c hc
    rw [hproj] at hc
    rw [jsSort_mem] at hc
    rcases List.mem_filterMap.mp hc with ⟨g, hg, hgc⟩
    by_cases hlen : g.2.length < 5
    · rw [if_pos hlen] at hgc
      exact absurd hgc (by simp)
    · rw [if_neg hlen] at hgc
      refine ⟨g, hg, ?_, by omega⟩
      have hceq : c = mkComparison now p g.1 g.2 := by
        injection hgc with h
        exact h.symm
      rw [hceq]
      simp [mkComparison]
  · intro hp
    subst hp
    simp only [calculateComparativeMetrics, hload]
  · intro name hp hname
    subst hp
    set L := jsSort
        (fun a b : ProjectComparison =>
          decide (b.overview.qualityScore ≤ a.overview.qualityScore))
        ((projectGroups allResults).filterMap (fun g =>
          if g.2.length < 5 then none
          else some (mkComparison now (some name) g.1 g.2))) with hLdef
    constructor
    · intro hex
      rw [hproj] at hex
      obtain ⟨c, hc, hcn⟩ := hex
      have hpred : (fun x : ProjectComparison => x.project == name) c = true := by
        simp [hcn]
      have hany : L.any (fun x => x.project == name) = true :=
        List.any_eq_true.mpr ⟨c, hc, hpred⟩
      have hlt : L.findIdx (fun x => x.project == name) < L.length :=
        List.findIdx_lt_length.mpr ⟨c, hc, hpred⟩
      refine ⟨L.findIdx (fun x => x.project == name), ?_, ?_⟩
      · simp only [calculateComparativeMetrics, hload]
        rw [← hLdef, if_pos hname, if_pos hany]
      · rw [hproj]
        refine ⟨L[L.findIdx (fun x => x.project == name)],
          List.getElem?_eq_getElem hlt, ?_⟩
        have hfi := List.findIdx_getElem (w := hlt)
        simpa using hfi
    · intro hall
      have hany : L.any (fun x => x.project == name) = false := by
        rw [List.any_eq_false]
        intro c hc
        simp only [beq_iff_eq]
        exact hall c (by rw [hproj]; exact hc)
      simp only [calculateComparativeMetrics, hload]
      rw [← hLdef, if_pos hname, hany]
      simp

/-- C1 witness at concrete inputs: one qualifying project "alpha" ranked
first; no current project yields a `null` rank. -/
theorem comparative_rank_semantics_witness :
    List.Pairwise
        (fun a b => b.overview.qualityScore ≤ a.overview.qualityScore)
        (calculateComparativeMetrics 0 storeProjFx [] (some "alpha")).projects ∧
    (∃ k, (calculateComparativeMetrics 0 storeProjFx []
            (some "alpha")).currentProjectRank = some (k + 1) ∧
        ∃ c, (calculateComparativeMetrics 0 storeProjFx []
            (some "alpha")).projects[k]? = some c ∧ c.project = "alpha") ∧
    (calculateComparativeMetrics 0 storeProjFx [] none).currentProjectRank
        = none :=
  ⟨(comparative_rank_semantics 0 storeProjFx [] (some "alpha")
      (storeProjFx.files.map normalizeEntry) (by decide)).1,
   ((comparative_rank_semantics 0 storeProjFx [] (some "alpha")
      (storeProjFx.files.map normalizeEntry) (by decide)).2.2.2 "alpha" rfl
      (by decide)).1 (by decide),
   (comparative_rank_semantics 0 storeProjFx [] none
      (storeProjFx.files.map normalizeEntry) (by decide)).2.2.1 rfl⟩

/-- C1 counterexample: with a current project named but no qualifying
projects at all, the code returns rank `some 0`, not `null` as the claim
states for an absent/unranked current project. -/
theorem comparative_rank_zero_counterexample :
    (calculateComparativeMetrics 0 emptyStoreFx [] (some "A")).projects = [] ∧
    (calculateComparativeMetrics 0 emptyStoreFx [] (some "A")).currentProjectRank
        = some 0 ∧
    (calculateComparativeMetrics 0 emptyStoreFx [] (some "A")).currentProjectRank
        ≠ none := by
  refine ⟨?_, ?_, ?_⟩ <;> decide

/-- `Map.set` followed by `Map.get` on the same key returns the new
entry. -/
theorem lookupCache_setCache (key : String) (e : CacheEntry)
    (c : List (String × CacheEntry)) :
    lookupCache key (setCache key e c) = some e := by
  induction c with
  | nil => simp [setCache, lookupCache]
  | cons kv c ih =>
    simp only [setCache]
    by_cases hk : kv.1 = key
    · rw [if_pos (by simp [hk])]
      simp only [List.map_cons, if_pos hk]
      simp [lookupCache]
    · by_cases hany : c.any (fun x => x.1 = key) = true
      · rw [if_pos (by simp [List.any_cons, hk, hany])]
        simp only [List.map_cons, if_neg hk]
        simp only [lookupCache, if_neg hk]
        have h2 := ih
        rw [setCache, if_pos hany] at h2
        exact h2
      · rw [if_neg (by simp [List.any_cons, hk, hany])]
        simp only [List.cons_append, lookupCache, if_neg hk]
        have h2 := ih
        rw [setCache, if_neg hany] at h2
        exact h2

/-- Cache-hit path: a fresh entry is returned as-is with no state change. -/
theorem calculateQualityMetrics_hit (svc : MetricsService) (now : Int)
    (p : Option String) (tf : Nat) (e : CacheEntry)
    (he : lookupCache (cacheKey p tf) svc.metricsCache = some e)
    (hf : now - e.timestamp < cacheTimeout) :
    calculateQualityMetrics svc now p tf = (.ok e.data, svc) := by
  simp only [calculateQualityMetrics, he]
  rw [if_pos hf]

/-- Miss/stale path: the snapshot is recomputed and stored under the key. -/
theorem calculateQualityMetrics_recompute (svc : MetricsService) (now : Int)
    (p : Option String) (tf : Nat)
    (hstale : ∀ e, lookupCache (cacheKey p tf) svc.metricsCache = some e →
      cacheTimeout ≤ now - e.timestamp)
    (m : Snapshot) (hm : computeSnapshot svc now p tf = .ok m) :
    calculateQualityMetrics svc now p tf =
      (.ok m, { svc with metricsCache :=
        (setCache (cacheKey p tf) { data := m, timestamp := now }
          svc.metricsCache) }) := by
  cases hlook : lookupCache (cacheKey p tf) svc.metricsCache with
  | none => simp only [calculateQualityMetrics, hlook, hm]
  | some e =>
    have hle := hstale e hlook
    simp only [calculateQualityMetrics, hlook, hm]
    rw [if_neg (by omega)]

/-- C4 (amended): with `cacheTimeout = 300 000 ms`, (i) a cache entry with
`now - computedAt < cacheTimeout` (strictly — at exactly 300 000 ms the
entry is already stale) is returned exactly as stored, with no state
change; (ii) otherwise the snapshot is recomputed, stored under the key
(timestamped `now`) and returned; (iii) any successfully returned snapshot
is in the resulting cache, so a second call within the TTL window returns
the identical snapshot without recomputation. -/
theorem cache_ttl_behavior (svc : MetricsService) (now : Int)
    (p : Option String) (tf : Nat) :
    (∀ e, lookupCache (cacheKey p tf) svc.metricsCache = some e →
      now - e.timestamp < cacheTimeout →
      calculateQualityMetrics svc now p tf = (.ok e.data, svc)) ∧
    ((∀ e, lookupCache (cacheKey p tf) svc.metricsCache = some e →
        cacheTimeout ≤ now - e.timestamp) →
      ∀ m, computeSnapshot svc now p tf = .ok m →
        calculateQualityMetrics svc now p tf =
          (.ok m, { svc with metricsCache :=
            (setCache (cacheKey p tf) { data := m, timestamp := now }
              svc.metricsCache) }) ∧
        lookupCache (cacheKey p tf)
            (setCache (cacheKey p tf) { data := m, timestamp := now }
              svc.metricsCache) = some { data := m, timestamp := now }) ∧
    (∀ m svc₂, calculateQualityMetrics svc now p tf = (.ok m, svc₂) →
      ∃ e, lookupCache (cacheKey p tf) svc₂.metricsCache = some e ∧
        e.data = m ∧
        ∀ now2, now2 - e.timestamp < cacheTimeout →
          calculateQualityMetrics svc₂ now2 p tf = (.ok m, svc₂)) := by
  refine ⟨?_, ?_, ?_⟩
  · intro e he hf
    exact calculateQualityMetrics_hit svc now p tf e he hf
  · intro hstale m hm
    exact ⟨calculateQualityMetrics_recompute svc now p tf hstale m hm,
      lookupCache_setCache _ _ _⟩
  · intro m svc₂ hcall
    cases hlook : lookupCache (cacheKey p tf) svc.metricsCache with
    | some e =>
      by_cases hf : now - e.timestamp < cacheTimeout
      · have hhit := calculateQualityMetrics_hit svc now p tf e hlook hf
        rw [hhit] at hcall
        have hm : e.data = m := by
          have h1 := congrArg Prod.fst hcall
          simpa using h1
        have hsvc : svc = svc₂ := congrArg Prod.snd hcall
        subst hsvc
        refine ⟨e, hlook, hm, ?_⟩
        intro now2 hf2
        have h2 := calculateQualityMetrics_hit svc now2 p tf e hlook hf2
        rw [← hm]
        exact h2
      · have hstale : ∀ e', lookupCache (cacheKey p tf) svc.metricsCache
            = some e' → cacheTimeout ≤ now - e'.timestamp := by
          intro e' he'
          rw [hlook] at he'
          injection he' with hh
          rw [← hh]
          omega
        cases hcs : computeSnapshot svc now p tf with
        | error u =>
          have herr : calculateQualityMetrics svc now p tf = (.error u, svc) := by
            simp only [calculateQualityMetrics, hlook, hcs]
            rw [if_neg hf]
          rw [herr] at hcall
          have h1 := congrArg Prod.fst hcall
          simp at h1
        | ok m2 =>
          have hrec := calculateQualityMetrics_recompute svc now p tf hstale m2 hcs
          rw [hrec] at hcall
          have hm : m2 = m := by
            have h1 := congrArg Prod.fst hcall
            simpa using h1
          have hsvc₂ : svc₂ = { svc with metricsCache :=
              (setCache (cacheKey p tf) { data := m2, timestamp := now }
                svc.metricsCache) } := (congrArg Prod.snd hcall).symm
          subst hm
          refine ⟨{ data := m2, timestamp := now }, ?_, rfl, ?_⟩
          · rw [hsvc₂]
            exact lookupCache_setCache _ _ _
          · intro now2 hf2
            have hl2 : lookupCache (cacheKey p tf) svc₂.metricsCache
                = some { data := m2, timestamp := now } := by
              rw [hsvc₂]
              exact lookupCache_setCache _ _ _
            exact calculateQualityMetrics_hit svc₂ now2 p tf _ hl2 hf2
    | none =>
      have hstale : ∀ e', lookupCache (cacheKey p tf) svc.metricsCache
          = some e' → cacheTimeout ≤ now - e'.timestamp := by
        intro e' he'
        rw [hlook] at he'
        exact absurd he' (by simp)
      cases hcs : computeSnapshot svc now p tf with
      | error u =>
        have herr : calculateQualityMetrics svc now p tf = (.error u, svc) := by
          simp only [calculateQualityMetrics, hlook, hcs]
        rw [herr] at hcall
        have h1 := congrArg Prod.fst hcall
        simp at h1
      | ok m2 =>
        have hrec := calculateQualityMetrics_recompute svc now p tf hstale m2 hcs
        rw [hrec] at hcall
        have hm : m2 = m := by
          have h1 := congrArg Prod.fst hcall
          simpa using h1
        have hsvc₂ : svc₂ = { svc with metricsCache :=
            (setCache (cacheKey p tf) { data := m2, timestamp := now }
              svc.metricsCache) } := (congrArg Prod.snd hcall).symm
        subst hm
        refine ⟨{ data := m2, timestamp := now }, ?_, rfl, ?_⟩
        · rw [hsvc₂]
          exact lookupCache_setCache _ _ _
        · intro now2 hf2
          have hl2 : lookupCache (cacheKey p tf) svc₂.metricsCache
              = some { data := m2, timestamp := now } := by
            rw [hsvc₂]
            exact lookupCache_setCache _ _ _
          exact calculateQualityMetrics_hit svc₂ now2 p tf _ hl2 hf2

/-- C4 witness: a fresh cached entry is served unchanged (clause (i)), and
the served snapshot is cached for identical service within the TTL window
(clause (iii)). -/
theorem cache_ttl_behavior_witness :
    calculateQualityMetrics svcCachedFx 0 none 30 =
      (.ok snapDummyFx, svcCachedFx) ∧
    (∃ e, lookupCache (cacheKey none 30) svcCachedFx.metricsCache = some e ∧
      e.data = snapDummyFx ∧
      ∀ now2, now2 - e.timestamp < cacheTimeout →
        calculateQualityMetrics svcCachedFx now2 none 30 =
          (.ok snapDummyFx, svcCachedFx)) :=
  ⟨(cache_ttl_behavior svcCachedFx 0 none 30).1
      { data := snapDummyFx, timestamp := 0 } (by decide) (by decide),
   (cache_ttl_behavior svcCachedFx 0 none 30).2.2 snapDummyFx svcCachedFx
      ((cache_ttl_behavior svcCachedFx 0 none 30).1
        { data := snapDummyFx, timestamp := 0 } (by decide) (by decide))⟩

/-- C4 counterexample: at exactly `now - computedAt = 300 000 ms` the code
does NOT serve the cached snapshot unchanged (the freshness test is a
strict `<`): it recomputes and mutates the cache, while one millisecond
earlier it serves the entry. -/
theorem cache_ttl_boundary_counterexample :
    (calculateQualityMetrics svcCachedFx 300000 none 30).1
        ≠ .ok snapDummyFx ∧
    (calculateQualityMetrics svcCachedFx 300000 none 30).2 ≠ svcCachedFx ∧
    (calculateQualityMetrics svcCachedFx 299999 none 30).1
        = .ok snapDummyFx := by
  refine ⟨?_, ?_, ?_⟩ <;> decide
